import Mathlib

/-!
Verification development for the smaug Free Mode pipeline
(`src/free-mode/pipeline.js` and `src/free-mode/openrouter-client.js`).

The JavaScript processing logic is shallowly embedded below.  Strings are
modelled by the Lean `String` type (a wrapper around `List Char`); the few
JavaScript string primitives the code uses (`toLowerCase`, `trim`,
`includes`, `slice`, `split`, `indexOf`, regular expression scans) are
reimplemented over `List Char` so that every definition is executable and
decidable.  The JavaScript operations are ASCII in all inputs that occur in
the repository, so the ASCII fragments of `toLowerCase` and whitespace
trimming are used.
-/

namespace Smaug

/-- Whitespace test used for the JavaScript `trim` and `\s` regular
expression class (ASCII fragment: space, tab, newline, carriage return). -/
def isWsC (c : Char) : Bool :=
  c == ' ' || c == '\t' || c == '\n' || c == '\r'

/-- Lowercasing of a string, modelling the JavaScript `toLowerCase`
(ASCII fragment, via `Char.toLower`). -/
def lowerS (s : String) : String :=
  ⟨s.data.map Char.toLower⟩

/-- Trim of a character list: drop whitespace from both ends,
modelling the JavaScript `trim`. -/
def trimLc (l : List Char) : List Char :=
  ((l.dropWhile isWsC).reverse.dropWhile isWsC).reverse

/-- Trim of a string, modelling the JavaScript `trim`. -/
def trimS (s : String) : String :=
  ⟨trimLc s.data⟩

/-- Take of the first `n` characters, modelling the JavaScript
`slice(0, n)` / `substring(0, n)` on ASCII text. -/
def takeS (n : Nat) (s : String) : String :=
  ⟨s.data.take n⟩

/-- Drop of the first `n` characters of a string. -/
def dropS (n : Nat) (s : String) : String :=
  ⟨s.data.drop n⟩

/-- Test whether `pat` is a prefix of `cs` (boolean, executable). -/
def startsWithL : List Char → List Char → Bool
  | _, [] => true
  | [], _ :: _ => false
  | c :: cs, p :: ps => c == p && startsWithL cs ps

/-- Test whether `pat` occurs as a contiguous substring of `cs`;
this models the JavaScript `String.prototype.includes`. -/
def containsL : List Char → List Char → Bool
  | [], pat => pat.isEmpty
  | c :: cs, pat => startsWithL (c :: cs) pat || containsL cs pat

/-- Substring test on strings, modelling the JavaScript `includes`. -/
def cSub (s pat : String) : Bool :=
  containsL s.data pat.data

/-- Prefix test on strings. -/
def startsWithS (s pat : String) : Bool :=
  startsWithL s.data pat.data

/-- Index of the first occurrence of `pat` in `cs`, modelling the
JavaScript `indexOf` (which returns -1, modelled by `none`, on a miss). -/
def indexOfSubL : List Char → List Char → Option Nat
  | [], pat => if pat.isEmpty then some 0 else none
  | c :: cs, pat =>
    if startsWithL (c :: cs) pat then some 0
    else (indexOfSubL cs pat).map (· + 1)

/-- Index of the first occurrence of character `ch` at position `i` or
later, modelling the JavaScript `indexOf(ch, i)`. -/
def indexOfCharFrom (cs : List Char) (ch : Char) (i : Nat) : Option Nat :=
  (indexOfSubL (cs.drop i) [ch]).map (i + ·)

/-- Fuelled worker for `splitWS`; the fuel is always instantiated with the
length of the list, which bounds the recursion because every step consumes
at least one character. -/
def splitWSGo : Nat → List Char → List Char → List (List Char)
  | _, [], acc => [acc.reverse]
  | 0, _ :: _, acc => [acc.reverse]
  | n + 1, c :: rest, acc =>
    if isWsC c then acc.reverse :: splitWSGo n (rest.dropWhile isWsC) []
    else splitWSGo n rest (c :: acc)

/-- Split of a string on runs of whitespace, modelling the JavaScript
`split(/\s+/)`: a leading or trailing run contributes an empty token,
exactly as in JavaScript. -/
def splitWS (s : String) : List String :=
  (splitWSGo s.data.length s.data []).map (fun l => (⟨l⟩ : String))

/-- JavaScript `a || b` for an optional string `a` and default `b`:
`undefined` and the empty string are falsy and select the default. -/
def jsOr (a : Option String) (b : String) : String :=
  match a with
  | some s => if s == "" then b else s
  | none => b

/-- Value of an optional string field accessed with `?.`, where an absent
object yields the empty string after the `|| ''` guard in the source. -/
def optStr (a : Option String) : String :=
  a.getD ""

/-! ## Data model

`Bookmark`, `Reasoning` (the ReasoningResult of the spec) and
`CategoryRule` mirror the record shapes used by `pipeline.js`.  Optional
JavaScript fields become `Option` fields.  The registry field named
`match` in the source is called `matchList` here because `match` is a
Lean keyword. -/

structure LinkContent where
  title : Option String
  name : Option String
  description : Option String
deriving DecidableEq, Repr

structure Link where
  expanded : String
  content : Option LinkContent
deriving DecidableEq, Repr

structure Ctx where
  author : String
  text : String
deriving DecidableEq, Repr

structure Bookmark where
  id : String
  author : String
  text : String
  date : Option String
  tweetUrl : String
  links : List Link
  tags : List String
  replyContext : Option Ctx
  quoteContext : Option Ctx
deriving DecidableEq, Repr

structure Reasoning where
  title : String
  summary : String
  tags : List String
  category : String
deriving DecidableEq, Repr

structure CategoryRule where
  key : Option String
  action : String
  folder : Option String
  matchList : List String
  template : Option String
  description : String
deriving DecidableEq, Repr

/-- Registry of category rules: the ordered entries of the JavaScript
`categories` object (iteration order matters for `_findCategoryByUrl`). -/
def Registry := List (String × CategoryRule)

/-- Lookup of a key in the registry, modelling `this.categories[key]`. -/
def lookupReg (reg : Registry) (k : String) : Option CategoryRule :=
  (reg.find? (fun e => e.1 == k)).map (·.2)

/-! ## Category resolver (`_matchCategory`, pipeline.js lines 203-315) -/

/-- Synonym table of `_matchCategory` (the `categoryMap` object literal,
pipeline.js lines 212-239).  The JavaScript object contains a few keys
inserted twice with identical values (`guide`, `automation`, `benefits`,
`backend`, `message`); an object lookup is therefore the total function
below, each key listed once. -/
def categoryMap : String → Option String
  | "github" | "repo" | "repository" | "code" | "source"
  | "tool" | "utility" | "library" | "framework" | "app" | "service" | "api" | "package" | "module"
  | "stack" | "techstack" | "tech" | "toolset" | "setup"
  | "mcp" | "automation" | "blender" | "os"
  | "operating" | "system"
  | "shipping" | "products" | "scene"
  | "storage" | "backend"
  | "layer" | "version" | "v3"
  | "unlimited" | "cloud" | "telegram"
  | "message" | "commit" => some "github"
  | "article" | "blog" | "post" | "guide" | "tutorial" | "docs" | "documentation"
  | "resource" | "resources" | "list" | "collection"
  | "deal" | "deals" | "offer" | "offers" | "discount" | "free"
  | "course" | "courses" | "learning" | "learn" | "education"
  | "student" | "students" | "developer" | "dev" | "programming"
  | "comprehensive" | "complete" | "ultimate"
  | "ai" | "ml" | "llm" | "model" | "claude" | "gemini"
  | "concept" | "tip" | "tips" | "millionaires"
  | "generation" | "benefits"
  | "guided" | "feature" | "hacking" | "beginners"
  | "intelligence" | "fundamental" | "advanced" | "concepts"
  | "vibe" | "chat" | "history" | "conversations" | "ragging" | "rag"
  | "vision" | "personal" | "3d"
  | "y combinator" | "yc" | "combinator" | "student deals"
  | "credits" | "startup" | "funding" | "accelerator" => some "article"
  | "video" | "youtube" | "screencast" | "talk" | "presentation" => some "youtube"
  | "podcast" | "audio" | "episode" | "interview" => some "podcast"
  | "general" | "misc" | "note" | "announcement" | "news" | "thought" | "idea" => some "tweet"
  | _ => none

/-- Synthesized terminal fallback rule of `_matchCategory`
(pipeline.js lines 307-314). -/
def fallbackRule : CategoryRule :=
  { key := some "tweet", action := "capture", folder := none,
    matchList := [], template := none, description := "Plain tweets" }

/-- Model of `_findCategoryByUrl` (pipeline.js lines 317-324): the first
registry entry one of whose `match` substrings occurs in the URL. -/
def findCategoryByUrl (reg : Registry) (url : String) : Option String :=
  (reg.find? (fun e => e.2.matchList.any (fun p => cSub url p))).map (·.1)

/-- Combined lowercased text used by the resolver:
title, summary and raw bookmark text joined by single spaces. -/
def combinedText (bm : Bookmark) (rs : Option Reasoning) : String :=
  lowerS (optStr (rs.map (·.title))) ++ " " ++
  lowerS (optStr (rs.map (·.summary))) ++ " " ++
  lowerS bm.text

/-- Steps 1-4 of `_matchCategory` (pipeline.js lines 241-291): direct
synonym lookup of the AI label, then the ordered keyword scans, then the
word-exact fallback, then the broad topical fallback.  Returns the
`matchedKey` value just before the URL escape and the registry lookup
(`none` models the JavaScript `undefined`). -/
def resolveKey (bm : Bookmark) (rs : Option Reasoning) : Option String :=
  let aiCategory := trimS (lowerS (optStr (rs.map (·.category))))
  let combined := combinedText bm rs
  let k0 := categoryMap aiCategory
  let k1 :=
    if k0.isNone then
      if cSub combined "github" || cSub combined " repo" || cSub combined "npm" ||
         cSub combined "mcp" || cSub combined "automation" || cSub combined "/commit" ||
         cSub combined "backend" || cSub combined "storage" || cSub combined "cloud" ||
         cSub combined "layer" || cSub combined "version" || cSub combined "blender" then
        some "github"
      else if cSub combined "video" || cSub combined "youtube" || cSub combined "watch" ||
              cSub combined "talk" then
        some "youtube"
      else if cSub combined "podcast" || cSub combined "audio" || cSub combined "episode" then
        some "podcast"
      else if cSub combined "article" || cSub combined "blog" || cSub combined "post" ||
              cSub combined "guide" || cSub combined "tutorial" || cSub combined "course" ||
              cSub combined "resource" || cSub combined "learning" || cSub combined "student" ||
              cSub combined "developer" || cSub combined "free" || cSub combined "comprehensive" ||
              cSub combined "ultimate" || cSub combined "deal" || cSub combined "tip" ||
              cSub combined "feature" || cSub combined "hacking" || cSub combined "beginners" ||
              cSub combined "generation" || cSub combined "fundamental" || cSub combined "advanced" ||
              cSub combined "concept" || cSub combined "benefits" || cSub combined "intelligence" ||
              cSub combined "vibe" || cSub combined "guided" || cSub combined "chat" ||
              cSub combined "history" || cSub combined "conversations" || cSub combined "ragging" ||
              cSub combined "vision" || cSub combined "personal" || cSub combined "3d" ||
              cSub combined "millionaire" then
        some "article"
      else if cSub combined "library" || cSub combined "framework" || cSub combined "tool" ||
              cSub combined " app" || cSub combined "stack" || cSub combined "tech" ||
              cSub combined "products" || cSub combined "shipping" || cSub combined "operating" ||
              cSub combined "system" || cSub combined "millionaires" || cSub combined "scene" then
        some "github"
      else none
    else k0
  let k2 :=
    if k1.isNone || k1 == some "tweet" then
      match (splitWS combined).find? (fun w => (categoryMap w).isSome) with
      | some w => categoryMap w
      | none => k1
    else k1
  if k2.isNone || k2 == some "tweet" then
    if cSub combined "ai" || cSub combined "student" || cSub combined "deal" ||
       cSub combined "credit" || cSub combined "combinator" || cSub combined "y combinator" ||
       cSub combined "yc" || cSub combined "startup" || cSub combined "funding" ||
       cSub combined "accelerator" then
      some "article"
    else k2
  else k2

/-- Model of `_matchCategory` (pipeline.js lines 203-315): the key
resolution of `resolveKey`, then the URL-match escape (only when the
resolved key is exactly the placeholder `tweet`), then the registry
lookup with the synthesized fallback. -/
def matchCategory (reg : Registry) (bm : Bookmark) (rs : Option Reasoning) : CategoryRule :=
  let k := resolveKey bm rs
  if k == some "tweet" then
    match bm.links.findSome? (fun l => findCategoryByUrl reg l.expanded) with
    | some key => (lookupReg reg key).getD fallbackRule
    | none => (k.bind (lookupReg reg)).getD fallbackRule
  else
    (k.bind (lookupReg reg)).getD fallbackRule

/-! ## The concrete registry of the repository test suite
(`test/free-mode.test.js`, DEFAULT_CATEGORIES). -/

def githubRule : CategoryRule :=
  { key := none, action := "file", folder := some "./knowledge/tools",
    matchList := ["github.com"], template := some "tool", description := "GitHub repositories" }

def articleRule : CategoryRule :=
  { key := none, action := "file", folder := some "./knowledge/articles",
    matchList := ["medium.com", "substack.com"], template := some "article", description := "Articles" }

def youtubeRule : CategoryRule :=
  { key := none, action := "transcribe", folder := some "./knowledge/videos",
    matchList := ["youtube.com", "youtu.be"], template := some "video", description := "Videos" }

def podcastRule : CategoryRule :=
  { key := none, action := "transcribe", folder := some "./knowledge/podcasts",
    matchList := ["podcasts.apple.com"], template := some "podcast", description := "Podcasts" }

def tweetRule : CategoryRule :=
  { key := none, action := "capture", folder := none,
    matchList := [], template := none, description := "Tweets" }

def defaultCategories : Registry :=
  [("github", githubRule), ("article", articleRule), ("youtube", youtubeRule),
   ("podcast", podcastRule), ("tweet", tweetRule)]

/-- Bookmark with every field empty or absent, the `{}` object of the
test suite (absent `text` reads as the empty string in `_matchCategory`). -/
def emptyBm : Bookmark :=
  { id := "", author := "", text := "", date := none, tweetUrl := "",
    links := [], tags := [], replyContext := none, quoteContext := none }

/-! ## Default metadata generator (`_generateDefaultMetadata`,
pipeline.js lines 134-201) -/

/-- Title and category chosen by `_generateDefaultMetadata` before the
truncation marker is appended: the JavaScript code initializes
`title = text.slice(0, 50)` and `category = General`, then reassigns them
in the if/else-if chain, which either matches the first link URL against
domain substrings (also overriding the title from the link content) or
scans the lowercased text for keywords (title left alone). -/
def defaultTitleCat (bm : Bookmark) : String × String :=
  let title0 := takeS 50 bm.text
  let textLower := lowerS bm.text
  match bm.links.head? with
  | some l =>
    let url := l.expanded
    if cSub url "github.com" || cSub url "npmjs.com" || cSub url "pypi.org" ||
       cSub url "gitlab.com" || cSub url "bitbucket.org" then
      (jsOr (l.content.bind (·.name)) (jsOr (l.content.bind (·.title)) title0), "GitHub")
    else if cSub url "medium.com" || cSub url "substack.com" || cSub url "dev.to" ||
            cSub url "blog." || cSub url "hackernoon.com" || cSub url "freecodecamp.org" then
      (jsOr (l.content.bind (·.title)) title0, "Article")
    else if cSub url "youtube.com" || cSub url "youtu.be" then
      (jsOr (l.content.bind (·.title)) title0, "Video")
    else if cSub url "podcasts.apple.com" || cSub url "spotify.com/episode" ||
            cSub url "overcast.fm" || cSub url "pocketcasts.com" then
      (jsOr (l.content.bind (·.title)) title0, "Podcast")
    else if cSub url "loom.com" || cSub url "vimeo.com" || cSub url "twitch.tv" then
      (jsOr (l.content.bind (·.title)) title0, "Video")
    else if cSub textLower "github" || cSub textLower "repo" || cSub textLower "npm " then
      (title0, "GitHub")
    else if cSub textLower "video" || cSub textLower "youtube" || cSub textLower "watch" then
      (title0, "Video")
    else if cSub textLower "article" || cSub textLower "blog" || cSub textLower "post" ||
            cSub textLower "guide" || cSub textLower "tutorial" || cSub textLower "course" ||
            cSub textLower "resource" || cSub textLower "learning" then
      (title0, "Article")
    else if cSub textLower "podcast" || cSub textLower "episode" then
      (title0, "Podcast")
    else if cSub textLower "library" || cSub textLower "framework" || cSub textLower "tool" ||
            cSub textLower "app" || cSub textLower "stack" || cSub textLower "tech" then
      (title0, "Tool")
    else
      (title0, "General")
  | none =>
    if cSub textLower "github" || cSub textLower "repo" || cSub textLower "npm " then
      (title0, "GitHub")
    else if cSub textLower "video" || cSub textLower "youtube" || cSub textLower "watch" then
      (title0, "Video")
    else if cSub textLower "article" || cSub textLower "blog" || cSub textLower "post" ||
            cSub textLower "guide" || cSub textLower "tutorial" || cSub textLower "course" ||
            cSub textLower "resource" || cSub textLower "learning" || cSub textLower "free" then
      (title0, "Article")
    else if cSub textLower "podcast" || cSub textLower "episode" then
      (title0, "Podcast")
    else if cSub textLower "library" || cSub textLower "framework" || cSub textLower "tool" ||
            cSub textLower "app" || cSub textLower "stack" || cSub textLower "tech" then
      (title0, "Tool")
    else if cSub textLower "deal" || cSub textLower "offer" || cSub textLower "discount" ||
            cSub textLower "student" || cSub textLower "developer" then
      (title0, "Article")
    else
      (title0, "General")

/-- Model of `_generateDefaultMetadata` (pipeline.js lines 134-201).
Note that the `...` truncation marker is appended whenever the raw text
exceeds 50 characters, even when the title was taken from the link. -/
def generateDefaultMetadata (bm : Bookmark) : Reasoning :=
  let tc := defaultTitleCat bm
  { title := tc.1 ++ (if 50 < bm.text.length then "..." else ""),
    summary := takeS 150 bm.text,
    tags := bm.tags,
    category := tc.2 }

/-! ## Reasoning call (`_buildPrompt` and `_getReasoning`,
pipeline.js lines 92-132) -/

/-- Model of `_buildPrompt` (pipeline.js lines 109-132). -/
def buildPrompt (bm : Bookmark) : String :=
  let linkInfo :=
    if 0 < bm.links.length then
      "\n\nLinks: " ++ String.intercalate "\n" (bm.links.map (·.expanded))
    else ""
  let replyInfo :=
    match bm.replyContext with
    | some rc => "\n\nReplying to @" ++ rc.author ++ ": \"" ++ takeS 120 rc.text ++ "\""
    | none => ""
  let quoteInfo :=
    match bm.quoteContext with
    | some qc => "\n\nQuoting @" ++ qc.author ++ ": \"" ++ takeS 120 qc.text ++ "\""
    | none => ""
  "Analyze this tweet and extract metadata for bookmark organization.\n\nTweet by: @" ++
  bm.author ++ "\nTweet text: " ++ bm.text ++ linkInfo ++ replyInfo ++ quoteInfo ++
  "\n\nReturn JSON object with:\n- title: Clean, concise title (max 60 chars, no hashtags)\n- summary: 1-2 sentence summary of the content\n- tags: Array of 2-4 relevant tags (lowercase, hyphenated)\n- category: One of: GitHub, Article, Video, Podcast, Tool, General"

/-- Model of `_getReasoning` (pipeline.js lines 92-107).  The remote
reasoner is modelled by an oracle returning `some result` on success and
`none` on any failure (timeout, transport error, parse or validation
error — the JavaScript code catches them all in one handler). -/
def getReasoning (oracle : Bookmark → Option Reasoning) (bm : Bookmark) : Reasoning :=
  if 3000 < (buildPrompt bm).length then generateDefaultMetadata bm
  else
    match oracle bm with
    | some r => r
    | none => generateDefaultMetadata bm

/-! ## Slug generator (`_generateSlug`, pipeline.js lines 326-340) -/

/-- Characters kept by the slug sanitizer, the complement of the
JavaScript character class `[^a-z0-9\s-]` applied after lowercasing. -/
def slugKeepC (c : Char) : Bool :=
  c.isLower || c.isDigit || isWsC c || c == '-'

/-- Fuelled worker collapsing every whitespace run to a single hyphen,
modelling the JavaScript `replace(/\s+/g, '-')`. -/
def hyGo : Nat → List Char → List Char
  | _, [] => []
  | 0, l => l
  | n + 1, c :: rest =>
    if isWsC c then '-' :: hyGo n (rest.dropWhile isWsC)
    else c :: hyGo n rest

/-- Whitespace runs collapsed to single hyphens. -/
def hyphenateWS (l : List Char) : List Char :=
  hyGo l.length l

/-- Sanitized slug stem of `_generateSlug`: lowercase, strip characters
outside `[a-z0-9\s-]`, trim, collapse whitespace to hyphens, truncate to
60 characters. -/
def slugStem (title : String) : String :=
  takeS 60 ⟨hyphenateWS (trimLc ((lowerS title).data.filter slugKeepC))⟩

/-- Model of `_generateSlug` (pipeline.js lines 326-340).  The MD5 hex
digest from the Node `crypto` library (external to the repository) is
modelled by the `digest` parameter; the real digest always returns a
32-character lowercase hexadecimal string, which theorems take as a
hypothesis where they need it. -/
def generateSlug (digest : String → String) (title author : String) : String :=
  slugStem title ++ "-" ++ takeS 8 (digest (title ++ "-" ++ author))

/-- Lowercase hexadecimal digit, the alphabet of a hex digest. -/
def isHexLowerC (c : Char) : Bool :=
  c.isDigit || (decide ('a' ≤ c) && decide (c ≤ 'f'))

/-! ## File writer (`_writeBookmark`, pipeline.js lines 342-366) -/

/-- Modelled from the spec: Node `path.join` (external library) for the
two-segment shapes used by the pipeline — segments joined by `/` with a
leading `./` normalized away. -/
def pathJoin (a b : String) : String :=
  (if startsWithS a "./" then dropS 2 a else a) ++ "/" ++ b

inductive WriteErr where
  | invalidSlug
  | invalidPath
deriving DecidableEq, Repr

/-- Model of `_writeBookmark` (pipeline.js lines 342-366): no file for a
non-`file` action; the invalid-slug guard (`!slug`, wrong type, or blank
after trim) and invalid-path guard become `.error`; otherwise the path
`{folder}/{slug}.md` is produced.  The rendered file content
(`_generateFileContent`) is not needed by any claim and is not modelled
(it reads the current date). -/
def writeBookmark (toolsDir : String) (cat : CategoryRule) (slug : String) :
    Except WriteErr (Option String) :=
  let action := if cat.action == "" then "capture" else cat.action
  if action != "file" then .ok none
  else if slug == "" || trimS slug == "" then .error .invalidSlug
  else
    let folder := jsOr cat.folder toolsDir
    let filePath := pathJoin folder (slug ++ ".md")
    if filePath == "" then .error .invalidPath
    else .ok (some filePath)

/-! ## Archive updater (`_appendToArchive`, `_insertIntoArchive`,
`_loadExistingIds`, pipeline.js lines 396-456) -/

/-- Removal of the first occurrence of `pat`, modelling the JavaScript
`replace(pat, '')` with a plain string pattern. -/
def removeFirstSubL (pat : List Char) : List Char → List Char
  | [] => []
  | c :: cs =>
    if startsWithL (c :: cs) pat then (c :: cs).drop pat.length
    else c :: removeFirstSubL pat cs

/-- Folder shown in the archive Filed pointer:
`category.folder?.replace(dotslash, empty) || default`, where dotslash is the two-character string `./`, empty the empty string, and default `knowledge/tools`. -/
def archiveFolder (folder : Option String) : String :=
  match folder with
  | some f =>
    let f2 : String := ⟨removeFirstSubL "./".data f.data⟩
    if f2 == "" then "knowledge/tools" else f2
  | none => "knowledge/tools"

/-- Entry block built by `_appendToArchive` (pipeline.js lines 396-419):
heading with author and title, blockquote of the raw text, tweet
permalink, optional link, optional wiki-style tags, a Filed pointer when
the action is `file` and the slug nonempty, and the What summary. -/
def archiveEntry (bm : Bookmark) (rsn : Reasoning) (cat : CategoryRule) (slug : String) : String :=
  let link := optStr (bm.links.head?.map (·.expanded))
  let e0 := "## @" ++ bm.author ++ " - " ++ rsn.title ++ "\n> " ++ bm.text ++ "\n\n" ++
            "- **Tweet:** " ++ bm.tweetUrl ++ "\n"
  let e1 := if link != "" then e0 ++ "- **Link:** " ++ link ++ "\n" else e0
  let e2 :=
    if 0 < bm.tags.length then
      e1 ++ "- **Tags:** " ++
        String.intercalate " " (bm.tags.map (fun t => "[[" ++ t ++ "]]")) ++ "\n"
    else e1
  let e3 :=
    if cat.action == "file" && slug != "" then
      e2 ++ "- **Filed:** [" ++ slug ++ ".md](./" ++ archiveFolder cat.folder ++ "/" ++
        slug ++ ".md)\n"
    else e2
  e3 ++ "- **What:** " ++ rsn.summary ++ "\n"

/-- Model of `_insertIntoArchive` (pipeline.js lines 421-439) over
character lists.  `indexOf(dateHeader)` finds the first occurrence of the
header substring; `indexOf('\n', dateIndex) + 1` is the insertion point —
and when no newline follows (JavaScript -1 + 1 = 0) the entry lands at
position 0, before the header. -/
def insertIntoArchiveL (date entry content : List Char) : List Char :=
  let header := '#' :: ' ' :: date
  match indexOfSubL content header with
  | some di =>
    match indexOfCharFrom content '\n' di with
    | some ni => content.take (ni + 1) ++ entry ++ '\n' :: content.drop (ni + 1)
    | none => entry ++ '\n' :: content
  | none => header ++ '\n' :: '\n' :: (entry ++ '\n' :: '\n' :: content)

/-- String wrapper for `_insertIntoArchive`. -/
def insertIntoArchive (date entry content : String) : String :=
  ⟨insertIntoArchiveL date.data entry.data content.data⟩

/-- Word character of the JavaScript regular expression class `\w`. -/
def isWordC (c : Char) : Bool :=
  c.isAlphanum || c == '_'

/-- Rest of `cs` after the prefix `pat`, or `none` when `pat` is not a
prefix. -/
def stripPre : List Char → List Char → Option (List Char)
  | [], cs => some cs
  | _ :: _, [] => none
  | p :: ps, c :: cs => if c == p then stripPre ps cs else none

/-- Attempted match of the permalink pattern `x.com/\w+/status/(\d+)` at
the head of `cs`; on success returns the captured digit string and the
rest of the input after the match (the `\w+` and `\d+` are maximal, which
agrees with the regular expression because neither class matches the
delimiter that must follow). -/
def tryMatchId (cs : List Char) : Option (String × List Char) :=
  match stripPre "x.com/".data cs with
  | none => none
  | some r1 =>
    let w := r1.takeWhile isWordC
    if w.isEmpty then none
    else
      match stripPre "/status/".data (r1.drop w.length) with
      | none => none
      | some r2 =>
        let d := r2.takeWhile Char.isDigit
        if d.isEmpty then none
        else some ((⟨d⟩ : String), r2.drop d.length)

/-- Fuelled scan for all non-overlapping permalink matches, modelling the
JavaScript `matchAll`; the fuel is instantiated with the input length,
which bounds the recursion because every step consumes at least one
character. -/
def scanIdsGo : Nat → List Char → List String
  | _, [] => []
  | 0, _ :: _ => []
  | n + 1, c :: rest =>
    match tryMatchId (c :: rest) with
    | some x => x.1 :: scanIdsGo n x.2
    | none => scanIdsGo n rest

/-- Model of `_loadExistingIds` (pipeline.js lines 441-456): every digit
string captured by `x.com/\w+/status/(\d+)` in the archive text. -/
def extractIds (content : String) : List String :=
  scanIdsGo content.data.length content.data

/-! ## Batch loop (`process` and `_processBookmark`,
pipeline.js lines 38-90) -/

/-- External collaborators of the pipeline: the registry, the remote
reasoner (modelled as an oracle, `none` meaning any failure), the MD5 hex
digest, and the default tools folder of the constructor. -/
structure Env where
  reg : Registry
  oracle : Bookmark → Option Reasoning
  digest : String → String
  toolsDir : String

/-- ProcessingResult returned by `_processBookmark`.  The `category`
field is `category.key` of the matched rule — an `Option` because the
registry rule objects of the repository carry no `key` property; only the
synthesized fallback does. -/
structure ProcResult where
  id : String
  title : String
  slug : String
  category : Option String
  filePath : Option String
deriving DecidableEq, Repr

/-- Model of `_processBookmark` (pipeline.js lines 66-90): reasoning,
category resolution, slug, conditional file write — and the archive
append, which the code performs only under `if (filePath)`, i.e. only
when a file was written.  Returns the ProcessingResult, the written file
path, and the archive insertion (date and entry) when one happened. -/
def processBookmark (env : Env) (bm : Bookmark) :
    Except WriteErr (ProcResult × Option String × Option (String × String)) :=
  let rsn := getReasoning env.oracle bm
  let cat := matchCategory env.reg bm (some rsn)
  let slug := generateSlug env.digest rsn.title bm.author
  (writeBookmark env.toolsDir cat slug).map fun fp =>
    ({ id := bm.id, title := rsn.title, slug := slug, category := cat.key, filePath := fp },
     fp,
     match fp with
     | some _ => some (jsOr bm.date "Unknown Date", archiveEntry bm rsn cat slug)
     | none => none)

/-- Mutable state of one `process` run: the duplicate-id set (seeded from
the archive, grown after each newly processed bookmark), the archive
text, the written file paths, the accumulated results, and a trace of the
bookmark ids for which `_getReasoning` ran. -/
structure PipeState where
  ids : List String
  archive : String
  files : List String
  results : List ProcResult
  reasoned : List String
deriving DecidableEq, Repr

/-- One iteration of the `process` loop (pipeline.js lines 44-57): a
bookmark whose id is in the duplicate set is skipped outright; otherwise
it is processed, its effects recorded, and its id added to the set — on a
per-bookmark error (the catch branch) nothing is recorded and the id is
not added. -/
def processStep (env : Env) (st : PipeState) (bm : Bookmark) : PipeState :=
  if st.ids.contains bm.id then st
  else
    match processBookmark env bm with
    | .error _ => { st with reasoned := st.reasoned ++ [bm.id] }
    | .ok out =>
      { ids := bm.id :: st.ids,
        archive :=
          match out.2.2 with
          | some de => insertIntoArchive de.1 de.2 st.archive
          | none => st.archive,
        files := st.files ++ (match out.2.1 with | some p => [p] | none => []),
        results := st.results ++ [out.1],
        reasoned := st.reasoned ++ [bm.id] }

/-- The `process` loop over a list of bookmarks. -/
def processLoop (env : Env) (st : PipeState) (bms : List Bookmark) : PipeState :=
  bms.foldl (processStep env) st

/-- Run state at the start of `process`: the duplicate set is seeded by
`_loadExistingIds` from the archive text. -/
def initState (archive : String) : PipeState :=
  { ids := extractIds archive, archive := archive, files := [], results := [], reasoned := [] }

/-- Model of `process` (pipeline.js lines 38-64). -/
def processBatch (env : Env) (archive : String) (bms : List Bookmark) : PipeState :=
  processLoop env (initState archive) bms

/-! ## Output parser/validator (`OpenRouterClient._parseOutput`,
openrouter-client.js lines 104-139)

The validation and normalization stage is modelled on parsed JSON values;
the upstream text stages (trim, fenced-block extraction, brace slicing,
`JSON.parse`) only select the JSON value this stage receives. -/

inductive JValue where
  | jNull
  | jBool (b : Bool)
  | jNum (n : Int)
  | jStr (s : String)
  | jArr (xs : List JValue)
  | jObj (fields : List (String × JValue))

/-- Property access `parsed[k]` on a JSON value: a lookup on objects,
`undefined` (here `none`) on every other non-null value. -/
def jField : JValue → String → Option JValue
  | .jObj fs, k => (fs.find? (fun e => e.1 == k)).map (·.2)
  | _, _ => none

/-- Guard `!(!(x) || typeof x !== string)` of the validator: the field
passes exactly when it is a string and truthy, i.e. a nonempty string
(a whitespace-only string is truthy and passes). -/
def strFieldOK : Option JValue → Bool
  | some (.jStr s) => s != ""
  | _ => false

/-- String payload of a field that passed `strFieldOK`. -/
def strOf : Option JValue → String
  | some (.jStr s) => s
  | _ => ""

/-- Guard `Array.isArray(x)`. -/
def isArrF : Option JValue → Bool
  | some (.jArr _) => true
  | _ => false

/-- Array payload of a field that passed `isArrF`. -/
def arrOf : Option JValue → List JValue
  | some (.jArr xs) => xs
  | _ => []

/-- The map `tags.map(t => t.trim())`: trims every element, and fails
(JavaScript TypeError) when an element is not a string. -/
def mapTrimStrings : List JValue → Option (List String)
  | [] => some []
  | .jStr s :: rest => (mapTrimStrings rest).map (trimS s :: ·)
  | _ :: _ => none

inductive ParseErr where
  | fieldErr (name : String)
  | tagsErr
  | typeErr
deriving DecidableEq, Repr

/-- Model of the validation and normalization stage of `_parseOutput`
(openrouter-client.js lines 120-138): field guards in source order
(`title`, `summary`, `category`, then `Array.isArray(tags)`), then
normalization trimming the three strings and mapping/filtering the tags.
A null value throws a TypeError at the first property access; a
non-string tag element throws a TypeError inside the map. -/
def validateOutput (j : JValue) : Except ParseErr Reasoning :=
  match j with
  | .jNull => .error .typeErr
  | _ =>
    if !(strFieldOK (jField j "title")) then .error (.fieldErr "title")
    else if !(strFieldOK (jField j "summary")) then .error (.fieldErr "summary")
    else if !(strFieldOK (jField j "category")) then .error (.fieldErr "category")
    else if !(isArrF (jField j "tags")) then .error .tagsErr
    else
      match mapTrimStrings (arrOf (jField j "tags")) with
      | none => .error .typeErr
      | some ts =>
        .ok { title := trimS (strOf (jField j "title")),
              summary := trimS (strOf (jField j "summary")),
              tags := ts.filter (fun t => t != ""),
              category := trimS (strOf (jField j "category")) }

/-- Acceptance test on the validator result. -/
def isOkE : Except ParseErr Reasoning → Bool
  | .ok _ => true
  | .error _ => false

/-! ## Concrete inputs used by the claim theorems -/

/-- Reasoning result with the given title, summary and category and no
tags, the shape used throughout the repository test suite. -/
def mkRsn (t s c : String) : Reasoning :=
  { title := t, summary := s, tags := [], category := c }

/-- Millionaire hard case of the test suite. -/
def rsnMillionaire : Reasoning := mkRsn "Rise of Automation Millionaires" "Test summary" "Millionaire"

/-- 3D Generation hard case of the test suite. -/
def rsn3d : Reasoning := mkRsn "3D Scene Generation" "Test summary" "3D Generation"

/-- Chat History hard case of the test suite. -/
def rsnChat : Reasoning := mkRsn "AI Chat History" "Test summary" "Chat History"

/-- Vision hard case of the test suite. -/
def rsnVision : Reasoning := mkRsn "Personal AI Vision" "Test summary" "Vision"

/-- Personal AI OS hard case of the test suite. -/
def rsnOS : Reasoning := mkRsn "Personal AI Operating System" "Test summary" "Personal AI OS"

/-- Y Combinator hard case of the test suite. -/
def rsnYC : Reasoning := mkRsn "Y Combinator Student Deals for AI Credits" "Test summary" "Y Combinator"

/-- Unrecognized-everything example of the spec and test suite. -/
def rsnUnknown : Reasoning := mkRsn "Random thoughts" "Just thinking" "Unknown"

/-- Reasoning whose category is the empty string and whose title, summary
and the bookmark text below match no keyword group. -/
def rsnEmptyCat : Reasoning := mkRsn "Zzz" "Qqq" ""

/-- Reasoning whose category maps to the generic placeholder. -/
def rsnGeneral : Reasoning := mkRsn "Zzz" "Qqq" "General"

/-- Bookmark with a github.com link whose text matches no keyword group. -/
def bmGh : Bookmark :=
  { id := "1", author := "a", text := "zzz qqq", date := none,
    tweetUrl := "https://x.com/a/status/1",
    links := [{ expanded := "https://github.com/foo/bar", content := none }],
    tags := [], replyContext := none, quoteContext := none }

/-- Environment with the test registry, a reasoner returning the
generic-placeholder result, and a fixed 32-hex digest. -/
def envGh : Env :=
  { reg := defaultCategories, oracle := fun _ => some rsnGeneral,
    digest := fun _ => "0123456789abcdef0123456789abcdef", toolsDir := "./knowledge/tools" }

/-- GitHub link carrying a known name in its content. -/
def ghLink : Link :=
  { expanded := "https://github.com/foo/bar",
    content := some { title := none, name := some "Foo", description := none } }

/-- Bookmark with a 52-character text and the GitHub link above. -/
def bmC6 : Bookmark :=
  { emptyBm with
    text := "0123456789012345678901234567890123456789012345678901", links := [ghLink] }

/-- Reasoning labelled Video, resolving to the transcribe-action rule. -/
def rsnVid : Reasoning := mkRsn "V title" "S" "Video"

/-- Environment whose reasoner labels everything Video. -/
def envVid : Env :=
  { reg := defaultCategories, oracle := fun _ => some rsnVid,
    digest := fun _ => "0123456789abcdef0123456789abcdef", toolsDir := "./knowledge/tools" }

/-- Bookmark processed successfully into the Video category. -/
def bmVid : Bookmark :=
  { emptyBm with
    id := "9", author := "v", text := "hello", tweetUrl := "https://x.com/v/status/9" }

/-- Environment whose reasoner always fails. -/
def env0 : Env :=
  { reg := defaultCategories, oracle := fun _ => none,
    digest := fun _ => "0123456789abcdef0123456789abcdef", toolsDir := "./knowledge/tools" }

/-- Archive text already containing the permalink of bookmark id 123. -/
def ar0 : String := "# 2024-01-01\n## @alice - T\n- **Tweet:** https://x.com/alice/status/123\n"

/-- Bookmark whose id already appears in `ar0`. -/
def bmDup : Bookmark := { emptyBm with id := "123", author := "alice" }

/-- Bookmark whose text alone makes the reasoning prompt exceed 3000
characters. -/
def bmLong : Bookmark := { emptyBm with text := ⟨List.replicate 3001 'a'⟩ }

/-! ## Helper lemmas -/

theorem data_append (a b : String) : (a ++ b).data = a.data ++ b.data := rfl

theorem trimLc_eq_nil {l : List Char} (h : trimLc l = []) : ∀ c ∈ l, isWsC c = true := by
  intro c hc
  unfold trimLc at h
  rw [List.reverse_eq_nil_iff, List.dropWhile_eq_nil_iff] at h
  by_contra hne
  have hw : isWsC c = false := by simpa using hne
  have hmem : c ∈ l.dropWhile isWsC := by
    have hsplit := List.takeWhile_append_dropWhile (p := isWsC) (l := l)
    rcases List.mem_append.1 (hsplit ▸ hc) with h1 | h2
    · exact absurd (List.mem_takeWhile_imp h1) (by simp [hw])
    · exact h2
  exact absurd (h c (List.mem_reverse.2 hmem)) (by simp [hw])

theorem trimS_ne_empty {s : String} {c : Char} (hc : c ∈ s.data) (hw : isWsC c = false) :
    trimS s ≠ "" := by
  intro h
  have hnil : trimLc s.data = [] := congrArg String.data h
  exact absurd (trimLc_eq_nil hnil c hc) (by simp [hw])

theorem hyphen_mem_slug (dg : String → String) (t a : String) :
    '-' ∈ (generateSlug dg t a).data := by
  show '-' ∈ (slugStem t ++ "-" ++ takeS 8 (dg (t ++ "-" ++ a))).data
  rw [data_append, data_append]
  exact List.mem_append.2 (Or.inl (List.mem_append.2 (Or.inr (by decide))))

theorem generateSlug_ne_empty (dg : String → String) (t a : String) :
    generateSlug dg t a ≠ "" := by
  intro h
  have hm := hyphen_mem_slug dg t a
  rw [h] at hm
  simp [String.data] at hm

theorem pathJoin_ne_empty (a b : String) : pathJoin a b ≠ "" := by
  intro h
  have hm : ('/' : Char) ∈ (pathJoin a b).data := by
    unfold pathJoin
    rw [data_append, data_append]
    exact List.mem_append.2 (Or.inl (List.mem_append.2 (Or.inr (by decide))))
  rw [h] at hm
  simp [String.data] at hm

theorem writeBookmark_slug_ok (td : String) (cat : CategoryRule) (dg : String → String)
    (t a : String) : ∃ r, writeBookmark td cat (generateSlug dg t a) = .ok r := by
  by_cases h1 : ((if cat.action == "" then "capture" else cat.action) != "file") = true
  · exact ⟨none, by simp only [writeBookmark, h1, if_true]⟩
  · have hact : (if cat.action == "" then "capture" else cat.action) = "file" := by
      by_contra hne
      exact h1 (by simpa [bne_iff_ne] using hne)
    have hact' : (if cat.action = "" then "capture" else cat.action) = "file" := by
      simpa using hact
    have hs : generateSlug dg t a ≠ "" := generateSlug_ne_empty dg t a
    have ht : trimS (generateSlug dg t a) ≠ "" :=
      trimS_ne_empty (hyphen_mem_slug dg t a) (by decide)
    have hp : pathJoin (jsOr cat.folder td) (generateSlug dg t a ++ ".md") ≠ "" :=
      pathJoin_ne_empty _ _
    exact ⟨some (pathJoin (jsOr cat.folder td) (generateSlug dg t a ++ ".md")),
      by simp [writeBookmark, hact', hs, ht, hp]⟩

theorem processBookmark_ok (env : Env) (bm : Bookmark) :
    ∃ out, processBookmark env bm = .ok out := by
  obtain ⟨r, hr⟩ := writeBookmark_slug_ok env.toolsDir
    (matchCategory env.reg bm (some (getReasoning env.oracle bm))) env.digest
    (getReasoning env.oracle bm).title bm.author
  unfold processBookmark
  simp only []
  rw [hr]
  exact ⟨_, rfl⟩

theorem processStep_dup (env : Env) (st : PipeState) (bm : Bookmark)
    (h : st.ids.contains bm.id = true) : processStep env st bm = st := by
  have h' : bm.id ∈ st.ids := by simpa using h
  simp [processStep, h']

theorem processStep_new_ids (env : Env) (st : PipeState) (bm : Bookmark)
    (h : st.ids.contains bm.id = false) :
    (processStep env st bm).ids = bm.id :: st.ids := by
  obtain ⟨out, ho⟩ := processBookmark_ok env bm
  have h' : bm.id ∉ st.ids := by simpa using h
  simp [processStep, h', ho]

theorem processStep_mem (env : Env) (st : PipeState) (bm : Bookmark) (x : String)
    (h : st.ids.contains x = true) : (processStep env st bm).ids.contains x = true := by
  by_cases hd : st.ids.contains bm.id = true
  · rw [processStep_dup env st bm hd]; exact h
  · have hd' : st.ids.contains bm.id = false := by simpa using hd
    rw [processStep_new_ids env st bm hd']
    have hx : x ∈ st.ids := by simpa using h
    simp [hx]

theorem processStep_self_mem (env : Env) (st : PipeState) (bm : Bookmark) :
    (processStep env st bm).ids.contains bm.id = true := by
  by_cases hd : st.ids.contains bm.id = true
  · rw [processStep_dup env st bm hd]; exact hd
  · have hd' : st.ids.contains bm.id = false := by simpa using hd
    rw [processStep_new_ids env st bm hd']
    simp

theorem processLoop_cons (env : Env) (st : PipeState) (bm : Bookmark) (bms : List Bookmark) :
    processLoop env st (bm :: bms) = processLoop env (processStep env st bm) bms := rfl

theorem processLoop_append (env : Env) (st : PipeState) (l1 l2 : List Bookmark) :
    processLoop env st (l1 ++ l2) = processLoop env (processLoop env st l1) l2 := by
  simp [processLoop, List.foldl_append]

theorem processLoop_mem (env : Env) (bms : List Bookmark) :
    ∀ st x, st.ids.contains x = true → (processLoop env st bms).ids.contains x = true := by
  induction bms with
  | nil => intro st x h; exact h
  | cons b bs ih =>
    intro st x h
    rw [processLoop_cons]
    exact ih _ _ (processStep_mem env st b x h)

theorem lenS_append (a b : String) : (a ++ b).length = a.length + b.length := by
  show (a ++ b).data.length = a.data.length + b.data.length
  rw [data_append, List.length_append]

/-! ## Claim theorems -/

set_option maxRecDepth 8000 in
/-- C1, counterexample: the Millionaire hard case (AI category
`Millionaire`, title `Rise of Automation Millionaires`) does NOT resolve
to the rule keyed `article`, against the claim.  The synonym table has
only the key `millionaires`, so the direct lookup of `millionaire`
misses, and the combined-text GitHub scan then fires on the substring
`automation` in the title, resolving to the rule keyed `github`. -/
theorem c1_millionaire_counterexample :
    matchCategory defaultCategories emptyBm (some rsnMillionaire) = githubRule ∧
    githubRule ≠ articleRule := by decide

set_option maxRecDepth 8000 in
/-- C1 (corrected): of the six documented hard cases, the five cases
3D Generation, Chat History, Vision, Personal AI OS and Y Combinator
resolve to the registry rule keyed `article`, while the Millionaire case
resolves to the registry rule keyed `github` (which, like `article`, has
the `file` action — the repository test only asserts the action). -/
theorem c1_hard_cases_amended :
    matchCategory defaultCategories emptyBm (some rsnMillionaire) = githubRule ∧
    matchCategory defaultCategories emptyBm (some rsn3d) = articleRule ∧
    matchCategory defaultCategories emptyBm (some rsnChat) = articleRule ∧
    matchCategory defaultCategories emptyBm (some rsnVision) = articleRule ∧
    matchCategory defaultCategories emptyBm (some rsnOS) = articleRule ∧
    matchCategory defaultCategories emptyBm (some rsnYC) = articleRule ∧
    githubRule.action = "file" ∧ articleRule.action = "file" := by decide

set_option maxRecDepth 8000 in
/-- C2, counterexample: a bookmark with a `github.com` link whose
reasoning category is the empty string (and whose text matches no
keyword group) resolves to the synthesized capture fallback, NOT to the
rule keyed `github`, against the claim: the URL-match escape runs only
when the resolved key is exactly the placeholder `tweet`, and an empty or
unrecognized label leaves the key undefined instead.  No file is
produced for the capture fallback. -/
theorem c2_unmatched_github_counterexample :
    matchCategory defaultCategories bmGh (some rsnEmptyCat) = fallbackRule ∧
    fallbackRule ≠ githubRule ∧
    matchCategory defaultCategories bmGh (some (mkRsn "Zzz" "Qqq" "Unknownzz")) = fallbackRule ∧
    writeBookmark "./knowledge/tools" fallbackRule "zzz-01234567" = .ok none := by
  refine ⟨by decide, by decide, by decide, rfl⟩

set_option maxRecDepth 8000 in
/-- C2 (corrected): the URL-match escape fires only when the resolved
key is exactly the generic placeholder `tweet` (for example AI label
`General`); then a bookmark with a `github.com` link resolves to the
registry rule keyed `github` and processing produces a file under that
folder of that rule.  With an empty or unrecognized label and no keyword
match, the resolver instead returns the synthesized capture fallback and
no file is produced. -/
theorem c2_url_escape_amended :
    matchCategory defaultCategories bmGh (some rsnGeneral) = githubRule ∧
    processBookmark envGh bmGh =
      .ok ({ id := "1", title := "Zzz", slug := "zzz-01234567", category := none,
             filePath := some "knowledge/tools/zzz-01234567.md" },
           some "knowledge/tools/zzz-01234567.md",
           some ("Unknown Date", archiveEntry bmGh rsnGeneral githubRule "zzz-01234567")) ∧
    matchCategory defaultCategories bmGh (some rsnEmptyCat) = fallbackRule ∧
    writeBookmark "./knowledge/tools" fallbackRule "zzz-01234567" = .ok none := by
  refine ⟨by decide, rfl, by decide, rfl⟩

set_option maxRecDepth 8000 in
/-- C3, counterexample: a title consisting of one space is truthy and of
string type, so it passes validation and is then trimmed to the empty
string — the parser ACCEPTS it, against the claim that a title empty
after trimming fails with a validation error naming `title`. -/
theorem c3_blank_title_counterexample :
    validateOutput (.jObj [("title", .jStr " "), ("summary", .jStr "S"),
      ("tags", .jArr []), ("category", .jStr "C")]) =
      .ok { title := "", summary := "S", tags := [], category := "C" } := rfl

/-- C3 (corrected): for every parsed JSON object, the validator checks
`title`, `summary`, `category`, `tags` in source order and reports the
first failure: a field that is absent, not a string, or the EMPTY string
(before trimming) fails with a validation error naming it; a non-array
`tags` fails with the error naming `tags`; the result is accepted
exactly when the three string fields are truthy strings and `tags` is an
array of strings — so a whitespace-only field passes validation and is
trimmed to empty during normalization. -/
theorem c3_validator_amended (fs : List (String × JValue)) :
    (strFieldOK (jField (.jObj fs) "title") = false →
       validateOutput (.jObj fs) = .error (.fieldErr "title")) ∧
    (strFieldOK (jField (.jObj fs) "title") = true →
     strFieldOK (jField (.jObj fs) "summary") = false →
       validateOutput (.jObj fs) = .error (.fieldErr "summary")) ∧
    (strFieldOK (jField (.jObj fs) "title") = true →
     strFieldOK (jField (.jObj fs) "summary") = true →
     strFieldOK (jField (.jObj fs) "category") = false →
       validateOutput (.jObj fs) = .error (.fieldErr "category")) ∧
    (strFieldOK (jField (.jObj fs) "title") = true →
     strFieldOK (jField (.jObj fs) "summary") = true →
     strFieldOK (jField (.jObj fs) "category") = true →
     isArrF (jField (.jObj fs) "tags") = false →
       validateOutput (.jObj fs) = .error .tagsErr) ∧
    isOkE (validateOutput (.jObj fs)) =
      (strFieldOK (jField (.jObj fs) "title") && strFieldOK (jField (.jObj fs) "summary") &&
       strFieldOK (jField (.jObj fs) "category") && isArrF (jField (.jObj fs) "tags") &&
       (mapTrimStrings (arrOf (jField (.jObj fs) "tags"))).isSome) := by
  refine ⟨?_, ?_, ?_, ?_, ?_⟩
  · intro h1; simp [validateOutput, h1]
  · intro h1 h2; simp [validateOutput, h1, h2]
  · intro h1 h2 h3; simp [validateOutput, h1, h2, h3]
  · intro h1 h2 h3 h4; simp [validateOutput, h1, h2, h3, h4]
  · cases h1 : strFieldOK (jField (.jObj fs) "title") <;>
    cases h2 : strFieldOK (jField (.jObj fs) "summary") <;>
    cases h3 : strFieldOK (jField (.jObj fs) "category") <;>
    cases h4 : isArrF (jField (.jObj fs) "tags") <;>
    simp [validateOutput, h1, h2, h3, h4, isOkE]
    cases hm : mapTrimStrings (arrOf (jField (.jObj fs) "tags")) <;> simp [hm, isOkE]

set_option maxRecDepth 8000 in
/-- C3 amended claim, witness at concrete inputs: a missing summary
reports `summary`, a non-array tags field reports `tags`, and a fully
valid object is accepted. -/
theorem c3_validator_amended_witness :
    validateOutput (.jObj [("title", .jStr "T")]) = .error (.fieldErr "summary") ∧
    validateOutput (.jObj [("title", .jStr "T"), ("summary", .jStr "S"),
      ("tags", .jStr "x"), ("category", .jStr "C")]) = .error .tagsErr ∧
    isOkE (validateOutput (.jObj [("title", .jStr " T "), ("summary", .jStr "S"),
      ("tags", .jArr [.jStr " a ", .jStr "  "]), ("category", .jStr "C")])) = true := by
  refine ⟨?_, ?_, ?_⟩
  · exact (c3_validator_amended [("title", .jStr "T")]).2.1 (by decide) (by decide)
  · exact (c3_validator_amended [("title", .jStr "T"), ("summary", .jStr "S"),
      ("tags", .jStr "x"), ("category", .jStr "C")]).2.2.2.1
      (by decide) (by decide) (by decide) (by decide)
  · rw [(c3_validator_amended [("title", .jStr " T "), ("summary", .jStr "S"),
      ("tags", .jArr [.jStr " a ", .jStr "  "]), ("category", .jStr "C")]).2.2.2.2]
    decide

set_option maxRecDepth 8000 in
/-- C4 (code bug): a successfully processed, non-duplicate bookmark
whose resolved category has the `transcribe` action produces NO archive
entry — `_processBookmark` calls `_appendToArchive` only under
`if (filePath)`, yet `_appendToArchive` itself handles the no-file case
(its Filed-pointer line is conditional), and the spec control flow and
the dedup design (the archive is the durable duplicate store) require an
entry for every processed bookmark.  Here bookmark 9 resolves to the
`youtube` rule (action `transcribe`), is reported in the results, and
the archive text stays empty. -/
theorem c4_transcribe_no_archive :
    (processStep envVid (initState "") bmVid).results =
      [{ id := "9", title := "V title", slug := "v-title-01234567",
         category := none, filePath := none }] ∧
    (processStep envVid (initState "") bmVid).archive = "" ∧
    (matchCategory defaultCategories bmVid (some rsnVid)).action = "transcribe" := by decide

/-- C5 (confirmed): the resolver is total — whenever steps 1-4 of
`_matchCategory` produce no key (no synonym, keyword, word or topical
match; the URL escape is then not even attempted and the registry lookup
of the undefined key misses), the resolver returns the synthesized
fallback rule with key `tweet`, action `capture` and no folder, for
every registry, bookmark, and reasoning result (including a null
reasoning result, covered by `rs = none`). -/
theorem c5_resolver_terminal_fallback (reg : Registry) (bm : Bookmark)
    (rs : Option Reasoning) (h : resolveKey bm rs = none) :
    matchCategory reg bm rs = fallbackRule := by
  simp [matchCategory, h]

set_option maxRecDepth 8000 in
/-- C5 witness: the spec example (category `Unknown`, title
`Random thoughts`, summary `Just thinking`) resolves no key and yields
the synthesized fallback on the test registry. -/
theorem c5_resolver_terminal_fallback_witness :
    resolveKey emptyBm (some rsnUnknown) = none ∧
    matchCategory defaultCategories emptyBm (some rsnUnknown) = fallbackRule :=
  ⟨by decide, c5_resolver_terminal_fallback defaultCategories emptyBm (some rsnUnknown) (by decide)⟩

set_option maxRecDepth 8000 in
/-- C6, counterexample: with a 52-character text and a GitHub link whose
content name is `Foo`, the default metadata title is `Foo...` — the
truncation marker is appended because the RAW TEXT exceeds 50
characters, even though the title came from the link, against the claim
that no truncation marker applies in that case. -/
theorem c6_link_title_marker_counterexample :
    (generateDefaultMetadata bmC6).title = "Foo..." ∧
    (generateDefaultMetadata bmC6).title ≠ "Foo" := by decide

/-- C6 (corrected): the default metadata title is the selected title
stem — the raw text truncated to 50 characters, or, when a primary link
is present and its URL matches the GitHub domain set, the known link
name or title — with `...` appended EXACTLY when the raw text exceeds 50
characters, regardless of where the stem came from. -/
theorem c6_title_amended (bm : Bookmark) :
    (generateDefaultMetadata bm).title =
      (defaultTitleCat bm).1 ++ (if 50 < bm.text.length then "..." else "") ∧
    (bm.links = [] → (defaultTitleCat bm).1 = takeS 50 bm.text) ∧
    (∀ l ls, bm.links = l :: ls → cSub l.expanded "github.com" = true →
      (defaultTitleCat bm).1 =
        jsOr (l.content.bind (·.name)) (jsOr (l.content.bind (·.title)) (takeS 50 bm.text))) := by
  refine ⟨rfl, ?_, ?_⟩
  · intro h
    simp only [defaultTitleCat, h, List.head?]
    split_ifs <;> rfl
  · intro l ls h hg
    simp [defaultTitleCat, h, hg]

set_option maxRecDepth 8000 in
/-- C6 amended claim, witness: on the concrete bookmark the GitHub
branch picks the link name `Foo` and the final title is `Foo...`. -/
theorem c6_title_amended_witness :
    bmC6.links = [ghLink] ∧ cSub ghLink.expanded "github.com" = true ∧
    (defaultTitleCat bmC6).1 =
      jsOr (ghLink.content.bind (·.name)) (jsOr (ghLink.content.bind (·.title)) (takeS 50 bmC6.text)) ∧
    (generateDefaultMetadata bmC6).title = (defaultTitleCat bmC6).1 ++ "..." :=
  ⟨rfl, by decide, (c6_title_amended bmC6).2.2 ghLink [] rfl (by decide),
   by rw [(c6_title_amended bmC6).1]; decide⟩

set_option maxRecDepth 8000 in
/-- C7, counterexample: when the archive consists of exactly the heading
line `# 2024-01-01` with no trailing newline, inserting an entry for
that date places the entry BEFORE the heading (JavaScript
`indexOf('\n', dateIndex)` returns -1, so the insertion position is 0),
against the claim that the entry is inserted immediately after the
heading line: the result does not even start with the heading. -/
theorem c7_heading_no_newline_counterexample :
    insertIntoArchive "2024-01-01" "E" "# 2024-01-01" = "E\n# 2024-01-01" ∧
    startsWithS (insertIntoArchive "2024-01-01" "E" "# 2024-01-01") "# 2024-01-01" = false := by
  decide

/-- C7 (corrected): the archive inserter is a pure splice that never
destroys existing content.  When the header substring `# <date>` occurs
and a newline follows its first occurrence, the entry (plus a newline)
is spliced in immediately after that newline — which is immediately
after the heading line whenever the archive is well formed (first
occurrence at a line start, newline-terminated) — and the document
splits around the insertion unchanged; when no newline follows the first
occurrence, the entry is placed at the very start of the unchanged
document; when the header does not occur, a new section is prepended and
all prior content is preserved unchanged after it. -/
theorem c7_insert_amended (date entry content : List Char) :
    (∀ di ni, indexOfSubL content ('#' :: ' ' :: date) = some di →
       indexOfCharFrom content '\n' di = some ni →
       insertIntoArchiveL date entry content =
         content.take (ni + 1) ++ entry ++ '\n' :: content.drop (ni + 1) ∧
       content.take (ni + 1) ++ content.drop (ni + 1) = content) ∧
    (∀ di, indexOfSubL content ('#' :: ' ' :: date) = some di →
       indexOfCharFrom content '\n' di = none →
       insertIntoArchiveL date entry content = entry ++ '\n' :: content) ∧
    (indexOfSubL content ('#' :: ' ' :: date) = none →
       insertIntoArchiveL date entry content =
         '#' :: ' ' :: date ++ '\n' :: '\n' :: (entry ++ '\n' :: '\n' :: content)) := by
  refine ⟨?_, ?_, ?_⟩
  · intro di ni h1 h2
    refine ⟨?_, List.take_append_drop _ _⟩
    simp [insertIntoArchiveL, h1, h2]
  · intro di h1 h2
    simp [insertIntoArchiveL, h1, h2]
  · intro h1
    simp [insertIntoArchiveL, h1]

set_option maxRecDepth 8000 in
/-- C7 amended claim, witness: inserting into a well-formed archive
whose heading line is newline-terminated splices the entry right after
the heading line. -/
theorem c7_insert_amended_witness :
    insertIntoArchiveL "2024-01-01".data "E".data "# 2024-01-01\nold".data =
      "# 2024-01-01\nE\nold".data := by
  have h := ((c7_insert_amended "2024-01-01".data "E".data "# 2024-01-01\nold".data).1
    0 12 (by decide) (by decide)).1
  rw [h]
  decide

/-- C8 (confirmed): duplicate bookmarks are skipped with no effect at
all.  First conjunct: a bookmark whose id is in the duplicate set is
skipped — the loop state (results, archive, files, reasoning trace) is
exactly as if the bookmark were absent.  Second conjunct: the same, for
an id present in the archive text at the start of the run (the set is
seeded by the permalink scan).  Third conjunct: a newly processed
bookmark registers its id in the set.  Fourth conjunct: within one
batch, once a bookmark has been handled, any later bookmark with the
same id is skipped. -/
theorem c8_dedup_skip (env : Env) (ar : String) (st : PipeState) (bm bm2 : Bookmark)
    (rest mid post : List Bookmark) :
    (st.ids.contains bm.id = true →
       processLoop env st (bm :: rest) = processLoop env st rest) ∧
    ((extractIds ar).contains bm.id = true →
       processBatch env ar (bm :: rest) = processLoop env (initState ar) rest) ∧
    (st.ids.contains bm.id = false →
       (processStep env st bm).ids = bm.id :: st.ids) ∧
    (bm2.id = bm.id →
       processLoop env st (bm :: (mid ++ bm2 :: post)) =
       processLoop env st (bm :: (mid ++ post))) := by
  refine ⟨?_, ?_, processStep_new_ids env st bm, ?_⟩
  · intro h
    rw [processLoop_cons, processStep_dup env st bm h]
  · intro h
    unfold processBatch
    rw [processLoop_cons, processStep_dup env (initState ar) bm h]
  · intro h2
    rw [processLoop_cons, processLoop_cons, processLoop_append, processLoop_append,
      processLoop_cons]
    congr 1
    apply processStep_dup
    rw [h2]
    exact processLoop_mem env mid _ bm.id (processStep_self_mem env st bm)

set_option maxRecDepth 8000 in
/-- C8 witness: on an archive already containing the permalink
`https://x.com/alice/status/123`, processing the single bookmark with id
123 changes nothing — no reasoning call, no file, no archive entry, no
result. -/
theorem c8_dedup_skip_witness :
    (extractIds ar0).contains "123" = true ∧
    processBatch env0 ar0 [bmDup] = initState ar0 :=
  ⟨by decide,
   (c8_dedup_skip env0 ar0 (initState ar0) bmDup bmDup [] [] []).2.1 (by decide)⟩

/-- C9 (confirmed): when the constructed prompt exceeds 3000 characters
the remote call is skipped entirely — the outcome is the default
metadata, independently of the remote reasoner — and when the remote
call fails in any way (the oracle returns `none`, covering timeout,
transport, parse and validation errors, which the code catches in one
handler) the pipeline likewise falls through to the default metadata
generator instead of failing the bookmark. -/
theorem c9_reasoning_fallback (oracle oracle2 : Bookmark → Option Reasoning) (bm : Bookmark) :
    (3000 < (buildPrompt bm).length →
       getReasoning oracle bm = generateDefaultMetadata bm ∧
       getReasoning oracle bm = getReasoning oracle2 bm) ∧
    (oracle bm = none → getReasoning oracle bm = generateDefaultMetadata bm) := by
  constructor
  · intro h
    constructor <;> simp [getReasoning, h]
  · intro h
    by_cases hl : 3000 < (buildPrompt bm).length
    · simp [getReasoning, hl]
    · simp [getReasoning, hl, h]

/-- C9 witness: a 3001-character text makes the prompt exceed the
threshold and a reasoner that would succeed is ignored; a failing
reasoner on a short bookmark also falls back to defaults. -/
theorem c9_reasoning_fallback_witness :
    (3000 < (buildPrompt bmLong).length ∧
     getReasoning (fun _ => some rsnVid) bmLong = generateDefaultMetadata bmLong) ∧
    getReasoning (fun _ => none) emptyBm = generateDefaultMetadata emptyBm := by
  have htext : ({ data := List.replicate 3001 'a' } : String).length = 3001 := by
    show (List.replicate 3001 'a').length = 3001
    rw [List.length_replicate]
  have hlen : 3000 < (buildPrompt bmLong).length := by
    unfold buildPrompt
    simp only [bmLong, emptyBm]
    norm_num [lenS_append]
    omega
  exact ⟨⟨hlen, ((c9_reasoning_fallback (fun _ => some rsnVid) (fun _ => none) bmLong).1 hlen).1⟩,
    (c9_reasoning_fallback (fun _ => none) (fun _ => none) emptyBm).2 rfl⟩

/-- C10 (confirmed): for every title and author, the generated slug is
the sanitized stem followed by a hyphen and the first 8 characters of
the digest; under the MD5 hex digest contract (at least 8 characters,
all lowercase hexadecimal) that tail is exactly 8 lowercase-hex
characters, the slug is nonempty even when the sanitized stem is empty,
and the file writer never takes an error branch on a pipeline slug —
the invalid-slug branch is unreachable. -/
theorem c10_slug_always_valid (dg : String → String) (t a : String)
    (hlen : 8 ≤ (dg (t ++ "-" ++ a)).length)
    (hhex : ∀ c ∈ (dg (t ++ "-" ++ a)).data, isHexLowerC c = true) :
    generateSlug dg t a = slugStem t ++ "-" ++ takeS 8 (dg (t ++ "-" ++ a)) ∧
    (takeS 8 (dg (t ++ "-" ++ a))).length = 8 ∧
    (∀ c ∈ (takeS 8 (dg (t ++ "-" ++ a))).data, isHexLowerC c = true) ∧
    generateSlug dg t a ≠ "" ∧
    (∀ td cat, ∃ r, writeBookmark td cat (generateSlug dg t a) = .ok r) := by
  refine ⟨rfl, ?_, ?_, generateSlug_ne_empty dg t a,
    fun td cat => writeBookmark_slug_ok td cat dg t a⟩
  · show ((dg (t ++ "-" ++ a)).data.take 8).length = 8
    rw [List.length_take]
    exact Nat.min_eq_left hlen
  · intro c hc
    exact hhex c (List.take_subset 8 _ hc)

set_option maxRecDepth 8000 in
/-- C10 witness: with a concrete 32-hex digest, an empty-stem title of
only punctuation still yields the nonempty slug `-01234567` and the file
writer succeeds. -/
theorem c10_slug_always_valid_witness :
    generateSlug (fun _ => "0123456789abcdef0123456789abcdef") "!!!" "bob" = "-01234567" ∧
    generateSlug (fun _ => "0123456789abcdef0123456789abcdef") "!!!" "bob" ≠ "" ∧
    (∃ r, writeBookmark "./knowledge/tools" githubRule
      (generateSlug (fun _ => "0123456789abcdef0123456789abcdef") "!!!" "bob") = .ok r) := by
  have h := c10_slug_always_valid (fun _ => "0123456789abcdef0123456789abcdef") "!!!" "bob"
    (by decide) (by decide)
  exact ⟨by decide, h.2.2.2.1, h.2.2.2.2 "./knowledge/tools" githubRule⟩

end Smaug
